import Mathlib

/-!
Verification development for google/pg_page_verification, a utility that walks a
postgres base directory, reads each segment file page by page, recomputes every
page checksum and tallies the pages whose stored checksum disagrees.

The embedding below translates `src/pg_page_verification.c` into Lean:

* file names and directory-entry names are `List Char` (C strings);
* page buffers and file contents are `List Nat` (byte values);
* the postgres checksum routine `pg_checksum_page` lives in the external header
  `storage/checksum_impl.h`, outside this repository; the spec treats it as a
  black-box pure function, so every definition here is parameterised by an
  arbitrary `chk : List Nat → Nat → Nat` standing for that routine;
* the file system consumed by the tree walk is a partial map from absolute
  paths (lists of entry names) to nodes; an unopenable file, an unlistable
  directory and a read error are explicit in the node type;
* the process-wide state mutated by `scan_directory` (the working directory set
  by `chdir`, and the `statbuf` that `lstat` fills in) is threaded explicitly.
-/

/-- Constant `BLCKSZ` from the postgres build configuration: bytes per data
page; the comment at lines 86-89 of the source fixes the default 8192. -/
def BLCKSZ : Nat := 8192

/-- Constant `RELSEG_SIZE` from the postgres build configuration: blocks per
segment file; the comment at lines 86-89 of the source fixes 131072 (so that a
segment holds 1 GiB of 8 KiB pages). -/
def RELSEG_SIZE : Nat := 131072

/-- Line 91: `static unsigned int segmentSize = RELSEG_SIZE * BLCKSZ;`, the
byte capacity of one segment file (the value fits in an unsigned int). -/
def segmentSize : Nat := RELSEG_SIZE * BLCKSZ

/-- Characters of the reserved internal-cache file name that line 156 passes to
`strstr`. -/
def pgInternalInitName : List Char :=
  ['p', 'g', '_', 'i', 'n', 't', 'e', 'r', 'n', 'a', 'l', '.', 'i', 'n', 'i', 't']

/-- Value `atoi` returns on a string made only of decimal digits: the decimal
number they spell.  (The C `atoi` is only ever called here on such a suffix;
its int overflow on runs of more than ten digits is undefined behaviour in C
and is not modelled.) -/
def atoiNat (s : List Char) : Nat :=
  s.foldl (fun n c => 10 * n + (c.toNat - 48)) 0

/-- Lines 46-62, `parse_segment_number`: starting from the last character, the
loop steps left over decimal digits; if it runs past the front of the string
(the whole name is digits) it returns 0, otherwise it returns `atoi` of the
suffix after the last non-digit, i.e. of the trailing digit run.  (On the empty
string the C code reads one byte before the buffer, which is undefined
behaviour; the model returns 0 there, and no theorem depends on that case.) -/
def parse_segment_number (filename : List Char) : Nat :=
  let ds := filename.reverse.takeWhile Char.isDigit
  if ds.length = filename.length then 0 else atoiNat ds.reverse

/-- The `pd_checksum` field of the `PageHeader` that line 79 lays over the page
buffer: a uint16 stored little-endian at byte offsets 8 and 9 (after the eight
`pd_lsn` bytes), as on the x86 targets the tool is built for. -/
def pd_checksum (page : List Nat) : Nat :=
  page.getD 8 0 + 256 * page.getD 9 0

/-- Lines 96-103: `segmentBlockOffset = RELSEG_SIZE * segmentNumber` and the
argument `segmentBlockOffset + blkno` passed to `pg_checksum_page`, both
computed in 32-bit unsigned arithmetic. -/
def absBlkno (filename : List Char) (blkno : Nat) : Nat :=
  (RELSEG_SIZE * parse_segment_number filename % 4294967296 + blkno) % 4294967296

/-- Lines 65-140, `is_page_corrupted`: recompute the checksum of the page at
its absolute block number and report corruption exactly when the stored header
checksum is non-zero and differs from it.  `chk` stands for the external
`pg_checksum_page`.  (The `dirpath` argument of the C function feeds only
verbose logging and is omitted.) -/
def is_page_corrupted (chk : List Nat → Nat → Nat) (page : List Nat) (blkno : Nat)
    (filename : List Char) : Bool :=
  (pd_checksum page != 0) && (pd_checksum page != chk page (absBlkno filename blkno))

/-- The test `strstr(hay, needle) != NULL` of line 156: does `needle` occur as
a contiguous substring of `hay`? -/
def containsSubstr (hay needle : List Char) : Bool :=
  match hay with
  | [] => needle.isEmpty
  | c :: rest => needle.isPrefixOf (c :: rest) || containsSubstr rest needle

/-- Lines 178-190, the read loop of `scan_segmentfile` on the byte sequence a
file delivers: while `read` returns a full `BLCKSZ` page, classify it and
advance `blkno`; a final short read (`0 < n < BLCKSZ`) adds one corrupted page
and stops; a final `read` result of 0 (end of file) or -1 (read error) adds
nothing, since the C code only checks `n > 0`.  The result records, in order,
the corrupted-page count, the number of pages passed to the checksum routine,
and the number of `read` calls the loop makes. -/
def scanLoop (chk : List Nat → Nat → Nat) (filename : List Char) (blkno : Nat)
    (rest : List Nat) : Nat × Nat × Nat :=
  if h : BLCKSZ ≤ rest.length then
    let c := if is_page_corrupted chk (rest.take BLCKSZ) blkno filename then 1 else 0
    let r := scanLoop chk filename (blkno + 1) (rest.drop BLCKSZ)
    (c + r.1, r.2.1 + 1, r.2.2 + 1)
  else if 0 < rest.length then (1, 0, 1) else (0, 0, 1)
termination_by rest.length
decreasing_by
  simp only [List.length_drop]
  exact Nat.sub_lt (Nat.lt_of_lt_of_le (by decide) h) (by decide)

/-- The successive full `BLCKSZ` pages of a byte sequence, dropping any partial
trailing page: exactly the pages on which the read loop computes a checksum. -/
def fullPages (bytes : List Nat) : List (List Nat) :=
  if h : BLCKSZ ≤ bytes.length then
    bytes.take BLCKSZ :: fullPages (bytes.drop BLCKSZ)
  else []
termination_by bytes.length
decreasing_by
  simp only [List.length_drop]
  exact Nat.sub_lt (Nat.lt_of_lt_of_le (by decide) h) (by decide)

/-- Corrupted-page count over a list of full pages starting at a given relative
block number, mirroring the body of the read loop. -/
def countCorrupt (chk : List Nat → Nat → Nat) (filename : List Char) :
    Nat → List (List Nat) → Nat
  | _, [] => 0
  | blkno, page :: pages =>
    (if is_page_corrupted chk page blkno filename then 1 else 0)
      + countCorrupt chk filename (blkno + 1) pages

/-- What opening and reading one file can yield: `none` when `open` fails;
`some (bytes, readErr)` when `open` succeeds, the successive `read` calls
deliver `bytes`, and after them `read` returns -1 (`readErr = true`) or 0, end
of file (`readErr = false`). -/
abbrev FileData := Option (List Nat × Bool)

/-- Lines 142-194, `scan_segmentfile`: skip any file whose name contains
`pg_internal.init` before opening it; count an unopenable file as 1; otherwise
run the read loop.  The terminal read result -1 versus 0 is invisible in the
count because line 186 only tests `n > 0`, so the `readErr` flag is ignored. -/
def scan_segmentfile (chk : List Nat → Nat → Nat) (filename : List Char)
    (file : FileData) : Nat :=
  if containsSubstr filename pgInternalInitName then 0
  else
    match file with
    | none => 1
    | some (bytes, _) => (scanLoop chk filename 0 bytes).1

/-- A constant stand-in for the external checksum routine, used to evaluate the
embedding on concrete inputs whose scans never reach a full page. -/
def chk0 : List Nat → Nat → Nat := fun _ _ => 0

/-- What `lstat` reports in `st_mode`: directory, regular file, or any other
node kind (the walk ignores the last). -/
inductive FileKind
  | dir
  | reg
  | other
deriving DecidableEq

/-- One node of the scanned file system: a regular file with its `FileData`, a
directory whose listing `readdir` yields in order (`none` when `opendir`
fails), or a node of another kind. -/
inductive FsNode
  | file : FileData → FsNode
  | dir : Option (List (List Char)) → FsNode
  | other : FsNode
deriving DecidableEq

/-- The process-wide state `scan_directory` mutates: the working directory (a
path, as a list of entry names) set by `chdir`, and the `statbuf` variable of
line 210, which `lstat` overwrites on success and leaves stale on failure
(`none` models its uninitialised first state). -/
structure WalkSt where
  cwd : List (List Char)
  statbuf : Option FileKind
deriving DecidableEq

/-- The `st_mode` kind of a node. -/
def nodeKind : FsNode → FileKind
  | FsNode.file _ => FileKind.reg
  | FsNode.dir _ => FileKind.dir
  | FsNode.other => FileKind.other

/-- Line 223, `lstat(dir->d_name, &statbuf)`: the name is resolved against the
current working directory; on success `statbuf` is overwritten with the node's
kind, on failure (no such path) it keeps its previous contents, since the C
code never checks the return value. -/
def lstatUpd (fs : List (List Char) → Option FsNode) (s : WalkSt)
    (name : List Char) : WalkSt :=
  match fs (s.cwd ++ [name]) with
  | some n => { s with statbuf := some (nodeKind n) }
  | none => s

/-- Line 168, `open(filename, O_RDONLY)` at an absolute path: a regular file
yields its `FileData`; a directory opens but its first `read` fails with
`EISDIR` (a -1 result, which the read loop treats like end of file); anything
else fails to open. -/
def openFile (fs : List (List Char) → Option FsNode) (path : List (List Char)) :
    FileData :=
  match fs path with
  | some (FsNode.file c) => c
  | some (FsNode.dir _) => some ([], true)
  | _ => none

/-- Lines 221-244, the `readdir` loop of `scan_directory`, processing the
listed names in order.  Each name is `lstat`ed relative to the current working
directory; a directory entry other than `.` and `..` recurses through `recur`
on the path `dirpath/name` built from the `dirpath` argument `p` (line 236); a
regular-file entry is handed to `scan_segmentfile`, whose `open` resolves the
bare name against the current working directory; other kinds are skipped. -/
def scanEntries (fs : List (List Char) → Option FsNode) (chk : List Nat → Nat → Nat)
    (recur : List (List Char) → WalkSt → Nat × WalkSt) (p : List (List Char)) :
    List (List Char) → WalkSt → Nat × WalkSt
  | [], s => (0, s)
  | name :: rest, s =>
    let s1 := lstatUpd fs s name
    match s1.statbuf with
    | some FileKind.dir =>
      if name = ['.'] || name = ['.', '.'] then scanEntries fs chk recur p rest s1
      else
        let r := recur (p ++ [name]) s1
        let r2 := scanEntries fs chk recur p rest r.2
        (r.1 + r2.1, r2.2)
    | some FileKind.reg =>
      let c := scan_segmentfile chk name (openFile fs (s1.cwd ++ [name]))
      let r2 := scanEntries fs chk recur p rest s1
      (c + r2.1, r2.2)
    | _ => scanEntries fs chk recur p rest s1

/-- Lines 196-249, `scan_directory` on an absolute path `p` (the tool is run
with an absolute data directory, and every recursive path extends it): if
`opendir` succeeds, `chdir(dirpath)` replaces the working directory — nothing
ever restores it — and the listing is processed; if `opendir` fails the call
contributes 0 and the state is untouched.  `fuel` only bounds the recursion
depth for Lean's sake; any value above the longest path in `fs` is enough. -/
def scan_directory (fs : List (List Char) → Option FsNode) (chk : List Nat → Nat → Nat)
    (fuel : Nat) (p : List (List Char)) (s : WalkSt) : Nat × WalkSt :=
  if h : fuel = 0 then (0, s)
  else
    match fs p with
    | some (FsNode.dir (some names)) =>
      scanEntries fs chk (fun q t => scan_directory fs chk (fuel - 1) q t) p names
        { s with cwd := p }
    | _ => (0, s)
termination_by fuel
decreasing_by omega

/-- A trivial recursion stand-in used where a witness instantiates the entry
loop with sibling lists that contain no directory entries, so the recursion
argument is never invoked. -/
def recur0 : List (List Char) → WalkSt → Nat × WalkSt := fun _ t => (0, t)

/-- Fixture: a directory `R` listing an unopenable regular file `u` followed by
a one-byte regular file `g`. -/
def fs5 : List (List Char) → Option FsNode := fun p =>
  if p = [['R']] then some (FsNode.dir (some [['u'], ['g']]))
  else if p = [['R'], ['u']] then some (FsNode.file none)
  else if p = [['R'], ['g']] then some (FsNode.file (some ([7], false)))
  else none

/-- Fixture: a directory `P` listing a subdirectory `s` (holding the one-byte
file `s/f`) before an empty regular file `f`. -/
def fs7a : List (List Char) → Option FsNode := fun p =>
  if p = [['P']] then some (FsNode.dir (some [['s'], ['f']]))
  else if p = [['P'], ['s']] then some (FsNode.dir (some [['f']]))
  else if p = [['P'], ['s'], ['f']] then some (FsNode.file (some ([7], false)))
  else if p = [['P'], ['f']] then some (FsNode.file (some ([], false)))
  else none

/-- The same tree as `fs7a` with the two entries of `P` listed in the other
order: the file `f` before the subdirectory `s`. -/
def fs7b : List (List Char) → Option FsNode := fun p =>
  if p = [['P']] then some (FsNode.dir (some [['f'], ['s']]))
  else if p = [['P'], ['s']] then some (FsNode.dir (some [['f']]))
  else if p = [['P'], ['s'], ['f']] then some (FsNode.file (some ([7], false)))
  else if p = [['P'], ['f']] then some (FsNode.file (some ([], false)))
  else none

/-- Fixture: a directory `R` listing an unlistable subdirectory `b` before a
one-byte regular file `g`. -/
def fs8 : List (List Char) → Option FsNode := fun p =>
  if p = [['R']] then some (FsNode.dir (some [['b'], ['g']]))
  else if p = [['R'], ['b']] then some (FsNode.dir none)
  else if p = [['R'], ['g']] then some (FsNode.file (some ([7], false)))
  else none

/-- Fixture: a directory `Q` listing a subdirectory `s` before an empty
regular file `g`; the subdirectory holds files `s/h` and `s/g`, the latter
shadowing the parent's `g` once the working directory has moved into `s`. -/
def fs10 : List (List Char) → Option FsNode := fun p =>
  if p = [['Q']] then some (FsNode.dir (some [['s'], ['g']]))
  else if p = [['Q'], ['s']] then some (FsNode.dir (some [['h']]))
  else if p = [['Q'], ['s'], ['h']] then some (FsNode.file (some ([5], false)))
  else if p = [['Q'], ['s'], ['g']] then some (FsNode.file (some ([9], false)))
  else if p = [['Q'], ['g']] then some (FsNode.file (some ([], false)))
  else none

/-- Helper: `takeWhile` consumes a block that satisfies the predicate
throughout and stops at the first failing element. -/
theorem takeWhile_all_append {p : Char → Bool} :
    ∀ (l1 : List Char) (c : Char) (l2 : List Char), (∀ x ∈ l1, p x = true) → p c = false →
      (l1 ++ c :: l2).takeWhile p = l1 := by
  intro l1
  induction l1 with
  | nil => intro c l2 _ hc; simp [List.takeWhile, hc]
  | cons a as ih =>
    intro c l2 hall hc
    have ha : p a = true := hall a (by simp)
    have hrest := ih c l2 (fun x hx => hall x (by simp [hx])) hc
    simp [List.takeWhile_cons, ha, hrest]

/-- Helper: subtracting one divisor step does not change a remainder. -/
theorem mod_sub_self {x B : Nat} (h : B ≤ x) : x % B = (x - B) % B := by
  conv_lhs => rw [show x = x - B + B from (Nat.sub_add_cancel h).symm]
  rw [Nat.add_mod_right]

/-- Helper: the read loop on an empty byte sequence makes one `read` call
(which returns 0 or -1) and counts nothing. -/
theorem scanLoop_nil (chk : List Nat → Nat → Nat) (fl : List Char) (b : Nat) :
    scanLoop chk fl b [] = (0, 0, 1) := by
  rw [scanLoop]
  norm_num [BLCKSZ]

/-- Helper: the read loop on a non-empty byte sequence shorter than a page
makes one short read, counts one corrupted page and checksums nothing. -/
theorem scanLoop_short (chk : List Nat → Nat → Nat) (fl : List Char) (b : Nat)
    (bytes : List Nat) (h1 : 0 < bytes.length) (h2 : bytes.length < BLCKSZ) :
    scanLoop chk fl b bytes = (1, 0, 1) := by
  rw [scanLoop]
  rw [dif_neg (by omega)]
  rw [if_pos h1]

/-- Helper, the shape of the read loop on arbitrary content: it counts the
corrupted full pages plus one for a partial trailing page, checksums exactly
the full pages, and makes one `read` call per full page plus the terminal
one. -/
theorem scanLoop_spec (chk : List Nat → Nat → Nat) (fl : List Char) :
    ∀ (n : Nat) (bytes : List Nat) (blkno : Nat), bytes.length ≤ n →
      scanLoop chk fl blkno bytes
        = (countCorrupt chk fl blkno (fullPages bytes)
             + (if bytes.length % BLCKSZ = 0 then 0 else 1),
           (fullPages bytes).length, (fullPages bytes).length + 1) := by
  intro n
  induction n with
  | zero =>
    intro bytes blkno hn
    have hb : bytes = [] := List.length_eq_zero.mp (Nat.le_zero.mp hn)
    subst hb
    rw [scanLoop, fullPages]
    rw [dif_neg (by decide : ¬ BLCKSZ ≤ ([] : List Nat).length)]
    simp [countCorrupt, BLCKSZ]
  | succ n ih =>
    intro bytes blkno hn
    by_cases h8 : BLCKSZ ≤ bytes.length
    · have hdrop : (bytes.drop BLCKSZ).length ≤ n := by
        simp only [List.length_drop]
        have h0 : 0 < BLCKSZ := by decide
        omega
      rw [scanLoop, dif_pos h8, fullPages, dif_pos h8]
      rw [ih (bytes.drop BLCKSZ) (blkno + 1) hdrop]
      simp only [countCorrupt, List.length_cons, List.length_drop]
      rw [mod_sub_self h8]
      simp only [Prod.mk.injEq]
      exact ⟨(Nat.add_assoc _ _ _).symm, trivial⟩
    · rw [scanLoop, dif_neg h8, fullPages, dif_neg h8]
      have hlt : bytes.length < BLCKSZ := Nat.lt_of_not_le h8
      by_cases hp : 0 < bytes.length
      · rw [if_pos hp]
        have hm : bytes.length % BLCKSZ = bytes.length := Nat.mod_eq_of_lt hlt
        rw [hm]
        simp only [countCorrupt, List.length_nil]
        rw [if_neg (by omega)]
      · have hz : bytes.length = 0 := by omega
        rw [if_neg hp]
        simp only [countCorrupt, List.length_nil, hz]
        norm_num

/-- Helper: the number of full pages in a byte sequence is its length divided
by the page size. -/
theorem fullPages_length :
    ∀ (n : Nat) (bytes : List Nat), bytes.length ≤ n →
      (fullPages bytes).length = bytes.length / BLCKSZ := by
  intro n
  induction n with
  | zero =>
    intro bytes hn
    have hb : bytes = [] := List.length_eq_zero.mp (Nat.le_zero.mp hn)
    subst hb
    rw [fullPages, dif_neg (by decide : ¬ BLCKSZ ≤ ([] : List Nat).length)]
    simp
  | succ n ih =>
    intro bytes hn
    by_cases h8 : BLCKSZ ≤ bytes.length
    · have hdrop : (bytes.drop BLCKSZ).length ≤ n := by
        simp only [List.length_drop]
        have h0 : 0 < BLCKSZ := by decide
        omega
      rw [fullPages, dif_pos h8]
      simp only [List.length_cons, ih _ hdrop, List.length_drop]
      rw [Nat.div_eq_sub_div (by decide) h8]
    · rw [fullPages, dif_neg h8]
      rw [Nat.div_eq_of_lt (Nat.lt_of_not_le h8)]
      simp

/-- Helper: one pass of the entry loop over a name whose `lstat` reports a
regular file — the file is scanned via its name resolved against the current
working directory, and the loop continues with `statbuf` holding the
regular-file kind. -/
theorem scanEntries_file_step (fs : List (List Char) → Option FsNode)
    (chk : List Nat → Nat → Nat) (recur : List (List Char) → WalkSt → Nat × WalkSt)
    (p : List (List Char)) (name : List Char) (rest : List (List Char)) (s : WalkSt)
    (c : FileData)
    (hfs : fs (s.cwd ++ [name]) = some (FsNode.file c)) :
    scanEntries fs chk recur p (name :: rest) s
      = (scan_segmentfile chk name (openFile fs (s.cwd ++ [name]))
           + (scanEntries fs chk recur p rest { s with statbuf := some FileKind.reg }).1,
         (scanEntries fs chk recur p rest { s with statbuf := some FileKind.reg }).2) := by
  simp only [scanEntries, lstatUpd, hfs, nodeKind]

/-- Helper: one pass of the entry loop over a name whose `lstat` reports a
directory other than `.` and `..` — the walk recurses on `dirpath/name` and
continues from the state the recursion left behind. -/
theorem scanEntries_dir_step (fs : List (List Char) → Option FsNode)
    (chk : List Nat → Nat → Nat) (recur : List (List Char) → WalkSt → Nat × WalkSt)
    (p : List (List Char)) (name : List Char) (rest : List (List Char)) (s : WalkSt)
    (l : Option (List (List Char)))
    (hfs : fs (s.cwd ++ [name]) = some (FsNode.dir l))
    (hn1 : ¬ name = ['.']) (hn2 : ¬ name = ['.', '.']) :
    scanEntries fs chk recur p (name :: rest) s
      = ((recur (p ++ [name]) { s with statbuf := some FileKind.dir }).1
           + (scanEntries fs chk recur p rest
                (recur (p ++ [name]) { s with statbuf := some FileKind.dir }).2).1,
         (scanEntries fs chk recur p rest
            (recur (p ++ [name]) { s with statbuf := some FileKind.dir }).2).2) := by
  simp only [scanEntries, lstatUpd, hfs, nodeKind, hn1, hn2]
  simp [hn1, hn2]

/-- Helper: `scan_directory` on a directory whose listing cannot be opened
returns 0 and leaves the state — including the working directory — exactly as
it was, because `chdir` only runs after a successful `opendir`. -/
theorem scan_directory_unlistable (fs : List (List Char) → Option FsNode)
    (chk : List Nat → Nat → Nat) (fuel : Nat) (q : List (List Char)) (s : WalkSt)
    (hq : fs q = some (FsNode.dir none)) :
    scan_directory fs chk fuel q s = (0, s) := by
  rw [scan_directory]
  by_cases hf : fuel = 0
  · rw [dif_pos hf]
  · rw [dif_neg hf, hq]

/-- Helper: the entry loop over names that all resolve to regular files never
moves the working directory. -/
theorem scanEntries_files_cwd (fs : List (List Char) → Option FsNode)
    (chk : List Nat → Nat → Nat) (recur : List (List Char) → WalkSt → Nat × WalkSt)
    (p : List (List Char)) :
    ∀ (names : List (List Char)) (s : WalkSt), s.cwd = p →
      (∀ n ∈ names, ∃ c, fs (p ++ [n]) = some (FsNode.file c)) →
      ((scanEntries fs chk recur p names s).2).cwd = p := by
  intro names
  induction names with
  | nil => intro s hs _; simpa [scanEntries] using hs
  | cons n ns ih =>
    intro s hs hall
    obtain ⟨c, hc⟩ := hall n (by simp)
    have hfs : fs (s.cwd ++ [n]) = some (FsNode.file c) := by rw [hs]; exact hc
    rw [scanEntries_file_step fs chk recur p n ns s c hfs]
    exact ih { s with statbuf := some FileKind.reg } hs
      (fun x hx => hall x (by simp [hx]))

/-- Helper: after `scan_directory` scans a listable directory containing only
regular files, the process working directory is that directory, whatever it
was before the call. -/
theorem scan_directory_flat_cwd (fs : List (List Char) → Option FsNode)
    (chk : List Nat → Nat → Nat) (fuel : Nat) (p : List (List Char)) (s : WalkSt)
    (names : List (List Char)) (hfuel : ¬ fuel = 0)
    (hp : fs p = some (FsNode.dir (some names)))
    (hflat : ∀ n ∈ names, ∃ c, fs (p ++ [n]) = some (FsNode.file c)) :
    ((scan_directory fs chk fuel p s).2).cwd = p := by
  rw [scan_directory, dif_neg hfuel, hp]
  exact scanEntries_files_cwd fs chk _ p names { s with cwd := p } rfl hflat

/-- Helper: a segment file whose content is a single byte scans to exactly one
corrupted unit (a short read). -/
theorem scan_one_byte (chk : List Nat → Nat → Nat) (name : List Char) (b : Nat) (e : Bool)
    (hname : containsSubstr name pgInternalInitName = false) :
    scan_segmentfile chk name (some ([b], e)) = 1 := by
  simp [scan_segmentfile, hname,
    scanLoop_short chk name 0 [b] (by simp) (by simp [BLCKSZ])]

/-- Helper: a segment file whose content is empty scans to zero, whether the
terminal read reports end of file or an error. -/
theorem scan_empty (chk : List Nat → Nat → Nat) (name : List Char) (e : Bool)
    (hname : containsSubstr name pgInternalInitName = false) :
    scan_segmentfile chk name (some ([], e)) = 0 := by
  simp [scan_segmentfile, hname, scanLoop_nil]

/-- Claim C1: for every page of exactly `PAGE_SIZE` bytes read at its absolute
block number, a stored header checksum of 0 (the unset sentinel) means the
page is classified not corrupted; otherwise the page is classified corrupted
exactly when the stored checksum differs from the checksum recomputed from the
page bytes and that block number, and OK when they agree.  Stated for every
checksum routine `chk`, since `pg_checksum_page` is an external black box. -/
theorem C1_page_classification (chk : List Nat → Nat → Nat) (page : List Nat)
    (blkno : Nat) (filename : List Char) (_hlen : page.length = BLCKSZ) :
    (pd_checksum page = 0 → is_page_corrupted chk page blkno filename = false)
    ∧ (pd_checksum page ≠ 0 →
        (is_page_corrupted chk page blkno filename = true
          ↔ pd_checksum page ≠ chk page (absBlkno filename blkno))) := by
  constructor
  · intro h0
    simp [is_page_corrupted, h0]
  · intro hne
    simp [is_page_corrupted, hne]

/-- Witness for C1: an 8192-byte all-zero page has stored checksum 0 and is
classified not corrupted. -/
theorem C1_page_classification_witness :
    is_page_corrupted chk0 (List.replicate 8192 0) 0 ['1'] = false :=
  (C1_page_classification chk0 (List.replicate 8192 0) 0 ['1']
    (by rw [List.length_replicate]; rfl)).1 (by decide)

/-- Counterexample for C2: the claim says the file name `5` (trailing digit
run `5`) yields segment ordinal 5, but `parse_segment_number` returns 0 on any
name made only of digits, because its scan runs past the front of the string. -/
theorem C2_all_digit_name_counterexample :
    parse_segment_number ['5'] = 0 ∧ ¬ parse_segment_number ['5'] = 5 := by decide

/-- Claim C2 as amended: splitting a file name as `a ++ b` with `b` a digit
suffix and `a` empty or ending in a non-digit, the segment ordinal is the
decimal value of the trailing digit run `b` when a non-digit precedes it, and
0 when the name consists entirely of digits (so also 0 when the name ends in
no digits, the case `b = []`). -/
theorem C2_trailing_digits_amended (a b : List Char) (hb : ∀ c ∈ b, c.isDigit = true)
    (ha : a = [] ∨ ∃ as c, a = as ++ [c] ∧ c.isDigit = false) :
    parse_segment_number (a ++ b) = if a.isEmpty then 0 else atoiNat b := by
  rcases ha with h | ⟨as, c, rfl, hc⟩
  · subst h
    simp only [List.nil_append, List.isEmpty_nil, if_true]
    have hself : b.reverse.takeWhile Char.isDigit = b.reverse :=
      List.takeWhile_eq_self_iff.mpr (fun x hx => hb x (List.mem_reverse.mp hx))
    simp [parse_segment_number, hself]
  · have hrev : ((as ++ [c]) ++ b).reverse = b.reverse ++ c :: as.reverse := by
      simp
    have htw : (b.reverse ++ c :: as.reverse).takeWhile Char.isDigit = b.reverse :=
      takeWhile_all_append b.reverse c as.reverse
        (fun x hx => hb x (List.mem_reverse.mp hx)) hc
    simp only [parse_segment_number, hrev, htw]
    have hlen : ¬ b.reverse.length = ((as ++ [c]) ++ b).length := by
      simp; omega
    rw [if_neg hlen]
    simp

/-- Witness for C2 as amended: the name `x42` has trailing digit run `42`
preceded by a non-digit, and parses to 42. -/
theorem C2_trailing_digits_amended_witness :
    parse_segment_number (['x'] ++ ['4', '2']) = atoiNat ['4', '2'] := by
  have h := C2_trailing_digits_amended ['x'] ['4', '2'] (by decide)
    (Or.inr ⟨[], 'x', rfl, by decide⟩)
  simpa using h

/-- Counterexample for C3: the claim says page index 3 of the segment file
named `5` is verified at absolute block 655363 (ordinal 5), but the file name
`5` is all digits, parses to ordinal 0, and the checksum block argument is 3. -/
theorem C3_segment_five_counterexample :
    absBlkno ['5'] 3 = 3 ∧ ¬ absBlkno ['5'] 3 = 655363 := by decide

/-- Claim C3 as amended: the block number handed to the checksum routine for
in-file page index `i` of a segment file is ordinal × blocks_per_segment + i
(mod 2^32), with blocks_per_segment = segment byte capacity / page size =
131072 and the ordinal as `parse_segment_number` computes it; in particular
page 3 of the file `1234.5` (a postgres segment-5 name) is verified at block
655363, while page 3 of a file named exactly `5` is verified at block 3. -/
theorem C3_absolute_block_amended :
    (∀ (f : List Char) (i : Nat),
        absBlkno f i = (parse_segment_number f * (segmentSize / BLCKSZ) + i) % 4294967296)
    ∧ absBlkno ['1', '2', '3', '4', '.', '5'] 3 = 655363
    ∧ absBlkno ['5'] 3 = 3 := by
  refine ⟨?_, by decide, by decide⟩
  intro f i
  have hs : segmentSize / BLCKSZ = RELSEG_SIZE := by decide
  rw [hs, absBlkno, Nat.mod_add_mod, Nat.mul_comm]

/-- Claim C4 is a code bug: the repository README states that free-space-map
and visibility-map files are skipped, but `scan_segmentfile` tests only for
the substring `pg_internal.init`, so a one-byte `16384_fsm` or `16384_vm` file
is opened, scanned, and counted as 1 corrupted unit instead of contributing
0. -/
theorem C4_fsm_vm_not_skipped :
    scan_segmentfile chk0 ['1', '6', '3', '8', '4', '_', 'f', 's', 'm'] (some ([0], false)) = 1
    ∧ scan_segmentfile chk0 ['1', '6', '3', '8', '4', '_', 'v', 'm'] (some ([0], false)) = 1 := by
  constructor
  · exact scan_one_byte chk0 ['1', '6', '3', '8', '4', '_', 'f', 's', 'm'] 0 false (by decide)
  · exact scan_one_byte chk0 ['1', '6', '3', '8', '4', '_', 'v', 'm'] 0 false (by decide)

/-- Counterexample for C5: a segment file whose `open` succeeds but whose very
first `read` fails is not counted as 1 corrupted unit as claimed — the loop
exits with n = -1, the `n > 0` test fails, and the file contributes 0. -/
theorem C5_read_error_counterexample :
    scan_segmentfile chk0 ['1'] (some (([] : List Nat), true)) = 0
    ∧ ¬ scan_segmentfile chk0 ['1'] (some (([] : List Nat), true)) = 1 := by
  have h := scan_empty chk0 ['1'] true (by decide)
  exact ⟨h, by omega⟩

/-- Claim C5 as amended: a segment file on which `open` fails is counted as
exactly 1 corrupted unit and the entry loop continues with the remaining
sibling entries from an otherwise unchanged state; a failed `read`, however,
adds nothing itself — the count is whatever the delivered bytes produced, the
same as if the file had ended there. -/
theorem C5_unreadable_file_amended :
    (∀ (chk : List Nat → Nat → Nat) (name : List Char),
        containsSubstr name pgInternalInitName = false →
        scan_segmentfile chk name none = 1)
    ∧ (∀ (chk : List Nat → Nat → Nat) (name : List Char) (bytes : List Nat),
        scan_segmentfile chk name (some (bytes, true))
          = scan_segmentfile chk name (some (bytes, false)))
    ∧ (∀ (fs : List (List Char) → Option FsNode) (chk : List Nat → Nat → Nat)
          (recur : List (List Char) → WalkSt → Nat × WalkSt)
          (p : List (List Char)) (name : List Char) (rest : List (List Char)) (s : WalkSt),
        containsSubstr name pgInternalInitName = false →
        fs (s.cwd ++ [name]) = some (FsNode.file none) →
        scanEntries fs chk recur p (name :: rest) s
          = (1 + (scanEntries fs chk recur p rest { s with statbuf := some FileKind.reg }).1,
             (scanEntries fs chk recur p rest { s with statbuf := some FileKind.reg }).2)) := by
  refine ⟨?_, ?_, ?_⟩
  · intro chk name h
    simp [scan_segmentfile, h]
  · intro chk name bytes
    simp [scan_segmentfile]
  · intro fs chk recur p name rest s hname hfs
    rw [scanEntries_file_step fs chk recur p name rest s none hfs]
    simp only [openFile, hfs]
    simp [scan_segmentfile, hname]

/-- Witness for C5 as amended: in a directory listing an unopenable file `u`
then a one-byte file `g`, the unopenable file contributes exactly 1 and the
sibling `g` is still scanned (contributing its own 1). -/
theorem C5_unreadable_file_amended_witness :
    scanEntries fs5 chk0 recur0 [['R']] [['u'], ['g']] ⟨[['R']], none⟩
      = (2, ⟨[['R']], some FileKind.reg⟩) := by
  rw [C5_unreadable_file_amended.2.2 fs5 chk0 recur0 [['R']] ['u'] [['g']] ⟨[['R']], none⟩
    (by decide) (by decide)]
  simp [scanEntries, lstatUpd, openFile, nodeKind, fs5,
    scan_one_byte chk0 ['g'] 7 false (by decide)]

/-- Claim C6: on a segment file whose byte count leaves a remainder strictly
between 1 and `PAGE_SIZE` - 1, the trailing short read adds exactly 1 to the
corrupted count beyond the full pages' own count, no checksum is computed on
the partial tail (only the full pages are checksummed), and the loop stops —
it makes exactly one read past the full pages; when the byte count is an exact
multiple of `PAGE_SIZE`, the final 0-byte read ends the scan adding nothing. -/
theorem C6_short_read (chk : List Nat → Nat → Nat) (name : List Char) (bytes : List Nat)
    (e : Bool) (hname : containsSubstr name pgInternalInitName = false) :
    (bytes.length % BLCKSZ ≠ 0 →
        scan_segmentfile chk name (some (bytes, e))
          = countCorrupt chk name 0 (fullPages bytes) + 1)
    ∧ (bytes.length % BLCKSZ = 0 →
        scan_segmentfile chk name (some (bytes, e))
          = countCorrupt chk name 0 (fullPages bytes))
    ∧ (scanLoop chk name 0 bytes).2.1 = bytes.length / BLCKSZ
    ∧ (scanLoop chk name 0 bytes).2.2 = bytes.length / BLCKSZ + 1 := by
  have hs := scanLoop_spec chk name bytes.length bytes 0 le_rfl
  have hf := fullPages_length bytes.length bytes le_rfl
  refine ⟨?_, ?_, ?_, ?_⟩
  · intro hr
    simp [scan_segmentfile, hname, hs, hr]
  · intro hr
    simp [scan_segmentfile, hname, hs, hr]
  · rw [hs]
    exact hf
  · rw [hs]
    simp [hf]

/-- Witness for C6: a one-byte file is one short read — one corrupted unit on
top of zero full pages, zero checksums computed, one read call made. -/
theorem C6_short_read_witness :
    scan_segmentfile chk0 ['1'] (some ([7], false))
        = countCorrupt chk0 ['1'] 0 (fullPages [7]) + 1
    ∧ (scanLoop chk0 ['1'] 0 [7]).2.1 = 0
    ∧ (scanLoop chk0 ['1'] 0 [7]).2.2 = 1 := by
  have h := C6_short_read chk0 ['1'] [7] false (by decide)
  refine ⟨h.1 (by decide), ?_, ?_⟩
  · simpa [BLCKSZ] using h.2.2.1
  · simpa [BLCKSZ] using h.2.2.2

/-- Claim C7 is a code bug: because `scan_directory` never restores the
working directory after recursing (the `chdir` slip documented by C10), the
walk's total is neither the sum of the descendant files' contributions nor
invariant under reordering a directory's listing.  In the fixture tree `P`
(subdirectory `s` holding the one-byte file `s/f`, plus the empty file `P/f`)
the listing order `[s, f]` yields 2 — `s/f` is counted twice, once inside `s`
and once when the parent's entry `f` is resolved against the leaked working
directory `P/s` — while the order `[f, s]` yields 1, the true descendant sum
(1 for `s/f`, 0 for `P/f`). -/
theorem C7_order_dependence :
    (scan_directory fs7a chk0 3 [['P']] ⟨[], none⟩).1 = 2
    ∧ (scan_directory fs7b chk0 3 [['P']] ⟨[], none⟩).1 = 1
    ∧ scan_segmentfile chk0 ['f'] (some ([7], false))
        + scan_segmentfile chk0 ['f'] (some ([], false)) = 1 := by
  refine ⟨?_, ?_, ?_⟩
  · simp [scan_directory, scanEntries, lstatUpd, openFile, nodeKind, fs7a,
      scan_one_byte chk0 ['f'] 7 false (by decide), scan_empty chk0 ['f'] false (by decide)]
  · simp [scan_directory, scanEntries, lstatUpd, openFile, nodeKind, fs7b,
      scan_one_byte chk0 ['f'] 7 false (by decide), scan_empty chk0 ['f'] false (by decide)]
  · rw [scan_one_byte chk0 ['f'] 7 false (by decide), scan_empty chk0 ['f'] false (by decide)]

/-- Claim C8: a subdirectory whose listing cannot be opened contributes
exactly 0 and leaves the walk state untouched, and the parent's entry loop
then continues with the remaining entries exactly as if only the `statbuf`
had been updated — the failure aborts nothing. -/
theorem C8_unlistable_directory :
    (∀ (fs : List (List Char) → Option FsNode) (chk : List Nat → Nat → Nat)
        (fuel : Nat) (q : List (List Char)) (s : WalkSt),
        fs q = some (FsNode.dir none) → scan_directory fs chk fuel q s = (0, s))
    ∧ (∀ (fs : List (List Char) → Option FsNode) (chk : List Nat → Nat → Nat)
        (fuel : Nat) (p : List (List Char)) (name : List Char)
        (rest : List (List Char)) (s : WalkSt),
        s.cwd = p → ¬ name = ['.'] → ¬ name = ['.', '.'] →
        fs (p ++ [name]) = some (FsNode.dir none) →
        scanEntries fs chk (fun q t => scan_directory fs chk fuel q t) p (name :: rest) s
          = scanEntries fs chk (fun q t => scan_directory fs chk fuel q t) p rest
              { s with statbuf := some FileKind.dir }) := by
  refine ⟨?_, ?_⟩
  · intro fs chk fuel q s hq
    exact scan_directory_unlistable fs chk fuel q s hq
  · intro fs chk fuel p name rest s hcwd hn1 hn2 hfs
    rw [scanEntries_dir_step fs chk _ p name rest s none (by rw [hcwd]; exact hfs) hn1 hn2]
    rw [scan_directory_unlistable fs chk fuel (p ++ [name]) _ hfs]
    simp

/-- Witness for C8: in the fixture tree `R`, the unlistable subdirectory `b`
drops out of the entry loop and its sibling `g` is still processed. -/
theorem C8_unlistable_directory_witness :
    scanEntries fs8 chk0 (fun q t => scan_directory fs8 chk0 1 q t) [['R']] [['b'], ['g']]
        ⟨[['R']], none⟩
      = scanEntries fs8 chk0 (fun q t => scan_directory fs8 chk0 1 q t) [['R']] [['g']]
          ⟨[['R']], some FileKind.dir⟩ :=
  C8_unlistable_directory.2 fs8 chk0 1 [['R']] ['b'] [['g']] ⟨[['R']], none⟩ rfl
    (by decide) (by decide) (by decide)

/-- Claim C9: the internal-cache exclusion is a substring match — any file
whose name contains `pg_internal.init` anywhere scans to 0 whatever its
content, including content `none` (the file is never opened: the test runs
before `open`). -/
theorem C9_internal_init_substring (chk : List Nat → Nat → Nat) (name : List Char)
    (file : FileData) (h : containsSubstr name pgInternalInitName = true) :
    scan_segmentfile chk name file = 0 := by
  simp [scan_segmentfile, h]

/-- Witness for C9: the file name `pg_internal.init.bak` contains the reserved
name as a substring and scans to 0 despite non-empty content. -/
theorem C9_internal_init_substring_witness :
    scan_segmentfile chk0
        ['p', 'g', '_', 'i', 'n', 't', 'e', 'r', 'n', 'a', 'l', '.', 'i', 'n', 'i', 't',
         '.', 'b', 'a', 'k'] (some ([1, 2, 3], false)) = 0 :=
  C9_internal_init_substring chk0 _ _ (by decide)

/-- Claim C10: `scan_directory` mutates process-wide state.  First, after it
scans a listable directory of regular files the working directory is that
directory regardless of what it was at the call, so the `chdir` of line 220 is
never undone on return.  Second, in consequence, once the entry loop has
recursed into a subdirectory `sub`, a following sibling entry `f` is `lstat`ed
and opened at `sub`'s path — its contribution is computed from the content of
`p/sub/f`, not of `p/f`. -/
theorem C10_chdir_not_restored :
    (∀ (fs : List (List Char) → Option FsNode) (chk : List Nat → Nat → Nat)
        (fuel : Nat) (p : List (List Char)) (s : WalkSt) (names : List (List Char)),
        ¬ fuel = 0 → fs p = some (FsNode.dir (some names)) →
        (∀ n ∈ names, ∃ c, fs (p ++ [n]) = some (FsNode.file c)) →
        ((scan_directory fs chk fuel p s).2).cwd = p)
    ∧ (∀ (fs : List (List Char) → Option FsNode) (chk : List Nat → Nat → Nat)
        (fuel : Nat) (p : List (List Char)) (s : WalkSt) (sub f : List Char)
        (rest subnames : List (List Char)) (cf : FileData),
        ¬ fuel = 0 → s.cwd = p → ¬ sub = ['.'] → ¬ sub = ['.', '.'] →
        fs (p ++ [sub]) = some (FsNode.dir (some subnames)) →
        (∀ n ∈ subnames, ∃ c, fs ((p ++ [sub]) ++ [n]) = some (FsNode.file c)) →
        fs ((p ++ [sub]) ++ [f]) = some (FsNode.file cf) →
        scanEntries fs chk (fun q t => scan_directory fs chk fuel q t) p (sub :: f :: rest) s
          = ((scan_directory fs chk fuel (p ++ [sub]) { s with statbuf := some FileKind.dir }).1
               + (scan_segmentfile chk f cf
                  + (scanEntries fs chk (fun q t => scan_directory fs chk fuel q t) p rest
                       ⟨p ++ [sub], some FileKind.reg⟩).1),
             (scanEntries fs chk (fun q t => scan_directory fs chk fuel q t) p rest
                ⟨p ++ [sub], some FileKind.reg⟩).2)) := by
  refine ⟨?_, ?_⟩
  · intro fs chk fuel p s names hfuel hp hflat
    exact scan_directory_flat_cwd fs chk fuel p s names hfuel hp hflat
  · intro fs chk fuel p s sub f rest subnames cf hfuel hcwd hs1 hs2 hsub hflat hf
    rw [scanEntries_dir_step fs chk _ p sub (f :: rest) s (some subnames)
      (by rw [hcwd]; exact hsub) hs1 hs2]
    have hcw : ((scan_directory fs chk fuel (p ++ [sub])
        { s with statbuf := some FileKind.dir }).2).cwd = p ++ [sub] :=
      scan_directory_flat_cwd fs chk fuel (p ++ [sub]) _ subnames hfuel hsub hflat
    have hfs2 : fs (((scan_directory fs chk fuel (p ++ [sub])
        { s with statbuf := some FileKind.dir }).2).cwd ++ [f]) = some (FsNode.file cf) := by
      rw [hcw]; exact hf
    rw [scanEntries_file_step fs chk _ p f rest _ cf hfs2]
    rcases h2 : (scan_directory fs chk fuel (p ++ [sub])
        { s with statbuf := some FileKind.dir }).2 with ⟨cw, sb⟩
    rw [h2] at hcw
    simp only at hcw
    subst hcw
    simp only [openFile, hf]

/-- Witness for C10: in the fixture tree `Q`, after the walk recurses into the
subdirectory `s` the parent's next entry `g` is resolved against `Q/s`: its
contribution is the scan of `Q/s/g`'s content (one byte, value 9), not of the
empty parent file `Q/g`. -/
theorem C10_chdir_not_restored_witness :
    scanEntries fs10 chk0 (fun q t => scan_directory fs10 chk0 1 q t) [['Q']]
        [['s'], ['g']] ⟨[['Q']], none⟩
      = ((scan_directory fs10 chk0 1 ([['Q']] ++ [['s']]) ⟨[['Q']], some FileKind.dir⟩).1
           + (scan_segmentfile chk0 ['g'] (some ([9], false))
              + (scanEntries fs10 chk0 (fun q t => scan_directory fs10 chk0 1 q t) [['Q']] []
                   ⟨[['Q']] ++ [['s']], some FileKind.reg⟩).1),
         (scanEntries fs10 chk0 (fun q t => scan_directory fs10 chk0 1 q t) [['Q']] []
            ⟨[['Q']] ++ [['s']], some FileKind.reg⟩).2) :=
  C10_chdir_not_restored.2 fs10 chk0 1 [['Q']] ⟨[['Q']], none⟩ ['s'] ['g'] [] [['h']]
    (some ([9], false)) (by decide) rfl (by decide) (by decide) (by decide)
    (by intro n hn; simp at hn; subst hn; exact ⟨some ([5], false), by decide⟩)
    (by decide)
